import Mathlib

/-!
Verification development for the numaflow windowed throughput-rate engine
(`server` package rate helper: `UpdateCount`, `CalculateRate`,
`calculatePartitionDelta`, `findStartIndex`, `findEndIndex`).

Modelling conventions:
* Go `float64` counts are modelled as `ℚ` (counts are exact numbers; no claim
  depends on floating-point rounding).
* Go maps are modelled as association lists; map indexing returns the zero
  value `0` for a missing key, as in Go.
* Go's `IndexNotFound = -1` sentinel is modelled as `Option Nat` (`none`).
* The wall clock `time.Now().Truncate(10s).Unix()` read inside
  `findStartIndex` is lifted to an explicit `now : Int` parameter, threaded
  through `CalculateRate`.
* The `vertexName` parameter and all log statements have no effect on the
  returned values and are dropped.
-/

/-- A Go `map[string]float64` from partition name to a count. -/
abbrev PartitionCountMap := List (String × ℚ)

/-- Go map indexing `m[k]`: the stored value, or the zero value `0`. -/
def lookupOr0 (m : PartitionCountMap) (k : String) : ℚ :=
  match m.find? (fun e => e.1 == k) with
  | some e => e.2
  | none => 0

/-- Modelled from the spec: the missing `PodReadCount` input type (§6 Input) —
a point-in-time report carrying a pod identity and the pod's per-partition
cumulative read counts. -/
structure PodReadCount where
  podName : String
  partitionReadCounts : PartitionCountMap
deriving DecidableEq

/-- A Go `map[string]map[string]float64` keyed by pod name. -/
abbrev PodPartitionCountMap := List (String × PartitionCountMap)

/-- Modelled from the spec: the missing `TimestampedCounts` bucket type
(§3, Timestamped Bucket) — a timestamp key, per-pod per-partition cumulative
counts, a per-pod per-partition delta snapshot populated at window close
(the shape `pod → partition → value` is fixed by `calculatePartitionDelta`
in the source, which iterates pods and indexes each by partition name),
and the one-way window-closed flag. -/
structure TimestampedCounts where
  timestamp : Int
  podPartitionCount : PodPartitionCountMap
  isWindowClosed : Bool
  delta : PodPartitionCountMap
deriving DecidableEq

/-- Modelled from the spec: bucket construction at a fresh timestamp
(§3 Lifecycle) — open window, empty counts. -/
def NewTimestampedCounts (t : Int) : TimestampedCounts :=
  { timestamp := t, podPartitionCount := [], isWindowClosed := false, delta := [] }

/-- Go map assignment `m[k] = v`: overwrite the entry for `k`, or add it. -/
def insertPod (m : PodPartitionCountMap) (pod : String) (v : PartitionCountMap) :
    PodPartitionCountMap :=
  match m with
  | [] => [(pod, v)]
  | e :: rest => if e.1 == pod then (pod, v) :: rest else e :: insertPod rest pod v

/-- Go nested map indexing `m[pod][part]` with zero default. -/
def lookupPodPartition (m : PodPartitionCountMap) (pod part : String) : ℚ :=
  match m.find? (fun e => e.1 == pod) with
  | some e => lookupOr0 e.2 part
  | none => 0

/-- Modelled from the spec: the missing `TimestampedCounts.Update` (§4.2) —
merge a per-pod cumulative-count report keyed by pod identity, overwriting the
pod's prior value (latest cumulative count wins). -/
def TimestampedCounts.Update (tc : TimestampedCounts) (r : PodReadCount) :
    TimestampedCounts :=
  { tc with podPartitionCount := insertPod tc.podPartitionCount r.podName r.partitionReadCounts }

/-- Per-pod delta of one partition map against the previous bucket (`none` for
the first-ever bucket, i.e. an implicit zero baseline); a per-pod counter
regression (pod restart) is treated as a fresh zero baseline (spec §4.2, P5). -/
def deltaForPod (prev : Option TimestampedCounts) (pod : String)
    (parts : PartitionCountMap) : PartitionCountMap :=
  parts.map (fun e =>
    let prevCount : ℚ :=
      match prev with
      | some p => lookupPodPartition p.podPartitionCount pod e.1
      | none => 0
    (e.1, if e.2 < prevCount then e.2 else e.2 - prevCount))

/-- Modelled from the spec: the missing `TimestampedCounts.CloseWindow` (§4.2)
— transitions `windowClosed` from false to true exactly once (subsequent calls
do not recompute), and populates the delta snapshot per pod and partition
relative to `prev`. -/
def TimestampedCounts.CloseWindow (tc : TimestampedCounts)
    (prev : Option TimestampedCounts) : TimestampedCounts :=
  if tc.isWindowClosed then tc
  else
    { tc with
      isWindowClosed := true
      delta := tc.podPartitionCount.map (fun e => (e.1, deltaForPod prev e.1 e.2)) }

/-- Modelled from the spec: `IsWindowClosed` is a pure predicate (§4.2). -/
def TimestampedCounts.IsWindowClosed (tc : TimestampedCounts) : Bool :=
  tc.isWindowClosed

/-- Modelled from the spec: `PodDeltaCountSnapshot` returns the delta
snapshot (§4.2). -/
def TimestampedCounts.PodDeltaCountSnapshot (tc : TimestampedCounts) :
    PodPartitionCountMap :=
  tc.delta

/-- Modelled from the spec: the missing generic `OverflowQueue` container
(§4.1 Bounded Ordered History) — fixed capacity, append to tail, the oldest
entry silently dropped when the capacity is exceeded. -/
structure OverflowQueue (α : Type) where
  elements : List α
  maxsize : Nat

/-- Modelled from the spec: `Items()` returns the current ordered snapshot. -/
def OverflowQueue.Items {α : Type} (q : OverflowQueue α) : List α :=
  q.elements

/-- Modelled from the spec: `Append(item)` adds to the tail; if the number of
stored items exceeds the capacity, the oldest item is dropped. -/
def OverflowQueue.Append {α : Type} (q : OverflowQueue α) (x : α) : OverflowQueue α :=
  let es := q.elements ++ [x]
  { q with elements := if q.maxsize < es.length then es.tail else es }

/-! ## Translations of the source file (rate helper, package `server`)

The Go code mutates the shared bucket objects through pointers obtained from
`q.Items()`; the functional model instead returns the queue with the affected
elements replaced in place. -/

/-- The Go loop `for _, i := range items { if i.timestamp == time { i.Update(...);
return } }`: update the first element with a matching timestamp. -/
def updateFirstMatch : List TimestampedCounts → Int → PodReadCount →
    List TimestampedCounts
  | [], _, _ => []
  | i :: rest, t, r =>
    if i.timestamp == t then i.Update r :: rest else i :: updateFirstMatch rest t r

/-- The `switch n := len(items)` of `UpdateCount`: close the window of the most
recent element — with `nil` baseline when it is the only element, and with the
second most recent element as baseline otherwise. -/
def closeMostRecent : List TimestampedCounts → List TimestampedCounts
  | [] => []
  | [a] => [a.CloseWindow none]
  | [a, b] => [a, b.CloseWindow (some a)]
  | a :: b :: c :: rest => a :: closeMostRecent (b :: c :: rest)

/-- Translation of `UpdateCount`: update the count of processed messages for a
pod at a given time — update the bucket matching the timestamp if present;
otherwise close the most recent window and append a fresh updated bucket. -/
def UpdateCount (q : OverflowQueue TimestampedCounts) (time : Int)
    (partitionReadCounts : PodReadCount) : OverflowQueue TimestampedCounts :=
  let items := q.Items
  if items.any (fun i => i.timestamp == time) then
    { q with elements := updateFirstMatch items time partitionReadCounts }
  else
    let tc := (NewTimestampedCounts time).Update partitionReadCounts
    OverflowQueue.Append { q with elements := closeMostRecent items } tc

/-- `counts[i]` on the snapshot; indices produced by the index-finding helpers
are always in range, so the default element is never relevant. -/
def nthBucket (counts : List TimestampedCounts) (i : Nat) : TimestampedCounts :=
  counts.getD i (NewTimestampedCounts 0)

/-- Translation of `calculatePartitionDelta`: sum, over the pods of the delta
snapshot, the delta recorded for the given partition. -/
def calculatePartitionDelta (c1 : TimestampedCounts) (partitionName : String) : ℚ :=
  (c1.PodDeltaCountSnapshot.map (fun e => lookupOr0 e.2 partitionName)).sum

/-- Loop condition of `findStartIndex`: the bucket at index `i` is within the
lookback window and its window is closed. -/
def startCond (now lb : Int) (counts : List TimestampedCounts) (i : Nat) : Bool :=
  decide (now - (nthBucket counts i).timestamp ≤ lb) && (nthBucket counts i).IsWindowClosed

/-- The backward scan of `findStartIndex`
(`for i := n-2; i >= 0; i-- { if cond then startIndex = i else break }`):
`si` is the best index found so far. -/
def startScan (now lb : Int) (counts : List TimestampedCounts) : Nat → Nat → Nat
  | si, 0 => if startCond now lb counts 0 then 0 else si
  | si, j + 1 =>
    if startCond now lb counts (j + 1) then startScan now lb counts (j + 1) j else si

/-- Translation of `findStartIndex`: `IndexNotFound` when there are fewer than
two buckets or the second-to-last bucket is already outside the lookback
window; otherwise scan backward from the second-to-last bucket. -/
def findStartIndex (now lookbackSeconds : Int) (counts : List TimestampedCounts) :
    Option Nat :=
  let n := counts.length
  if n < 2 ∨ lookbackSeconds < now - (nthBucket counts (n - 2)).timestamp then none
  else some (startScan now lookbackSeconds counts (n - 2) (n - 2))

/-- The backward scan of `findEndIndex`
(`for i := len(counts)-1; i >= 0; i--`). -/
def endScan (counts : List TimestampedCounts) : Nat → Option Nat
  | 0 => if (nthBucket counts 0).IsWindowClosed then some 0 else none
  | j + 1 =>
    if (nthBucket counts (j + 1)).IsWindowClosed then some (j + 1) else endScan counts j

/-- Translation of `findEndIndex`: the most recent bucket whose window is
closed, `IndexNotFound` when there is none. -/
def findEndIndex (counts : List TimestampedCounts) : Option Nat :=
  match counts.length with
  | 0 => none
  | n + 1 => endScan counts n

/-- The summing loop of `CalculateRate`
(`for i := startIndex; i < endIndex; i++`): add the partition delta of
`counts[i+1]` whenever that bucket's window is closed. (The Go `!= nil` check
is vacuous in the model: every element is a value.) -/
def deltaAccum (counts : List TimestampedCounts) (partitionName : String)
    (si ei : Nat) : ℚ :=
  (List.range' si (ei - si)).foldl
    (fun delta i =>
      if (nthBucket counts (i + 1)).IsWindowClosed then
        delta + calculatePartitionDelta (nthBucket counts (i + 1)) partitionName
      else delta)
    0

/-- Translation of `CalculateRate`: the rate of the vertex partition in the
last lookback seconds — `0` on insufficient history, missing start or end
index, or zero time difference, and otherwise the accumulated closed-window
delta divided by the time difference. -/
def CalculateRate (q : OverflowQueue TimestampedCounts) (now lookbackSeconds : Int)
    (partitionName : String) : ℚ :=
  let counts := q.Items
  if counts.length ≤ 1 then 0
  else
    match findStartIndex now lookbackSeconds counts, findEndIndex counts with
    | some startIndex, some endIndex =>
      let timeDiff : Int :=
        (nthBucket counts endIndex).timestamp - (nthBucket counts startIndex).timestamp
      if timeDiff = 0 then 0
      else deltaAccum counts partitionName startIndex endIndex / (timeDiff : ℚ)
    | _, _ => 0

/-! ## Basic lemmas about the embedding -/

theorem nthBucket_cons_zero (a : TimestampedCounts) (l : List TimestampedCounts) :
    nthBucket (a :: l) 0 = a := rfl

theorem nthBucket_cons_succ (a : TimestampedCounts) (l : List TimestampedCounts)
    (j : Nat) : nthBucket (a :: l) (j + 1) = nthBucket l j := rfl

theorem calculateRate_of_length_le_one (q : OverflowQueue TimestampedCounts)
    (now lb : Int) (p : String) (h : q.Items.length ≤ 1) :
    CalculateRate q now lb p = 0 := by
  simp [CalculateRate, h]

theorem calculateRate_of_startIndex_none (q : OverflowQueue TimestampedCounts)
    (now lb : Int) (p : String) (h : findStartIndex now lb q.Items = none) :
    CalculateRate q now lb p = 0 := by
  unfold CalculateRate
  by_cases hl : q.Items.length ≤ 1
  · simp [hl]
  · simp only [hl, if_false, h]

theorem calculateRate_of_endIndex_none (q : OverflowQueue TimestampedCounts)
    (now lb : Int) (p : String) (h : findEndIndex q.Items = none) :
    CalculateRate q now lb p = 0 := by
  unfold CalculateRate
  by_cases hl : q.Items.length ≤ 1
  · simp [hl]
  · cases hs : findStartIndex now lb q.Items <;> simp [hl, h, hs]

theorem endScan_some_spec (counts : List TimestampedCounts) :
    ∀ i ei, endScan counts i = some ei →
      (nthBucket counts ei).IsWindowClosed = true ∧ ei ≤ i ∧
      ∀ j, ei < j → j ≤ i → (nthBucket counts j).IsWindowClosed = false := by
  intro i
  induction i with
  | zero =>
    intro ei h
    unfold endScan at h
    by_cases hc : (nthBucket counts 0).IsWindowClosed
    · simp [hc] at h
      subst h
      exact ⟨hc, Nat.le_refl 0, fun j hj hj0 => absurd (Nat.lt_of_lt_of_le hj hj0) (Nat.lt_irrefl _)⟩
    · simp [hc] at h
  | succ j ih =>
    intro ei h
    unfold endScan at h
    by_cases hc : (nthBucket counts (j + 1)).IsWindowClosed
    · simp [hc] at h
      subst h
      exact ⟨hc, Nat.le_refl _, fun k hk hk' => absurd (Nat.lt_of_lt_of_le hk hk') (Nat.lt_irrefl _)⟩
    · simp [hc] at h
      obtain ⟨h1, h2, h3⟩ := ih ei h
      refine ⟨h1, Nat.le_succ_of_le h2, fun k hk hk' => ?_⟩
      rcases Nat.lt_or_ge k (j + 1) with hlt | hge
      · exact h3 k hk (Nat.lt_succ_iff.mp hlt)
      · have : k = j + 1 := Nat.le_antisymm hk' hge
        subst this
        simpa using hc

theorem endScan_none_of_all_open (counts : List TimestampedCounts) :
    ∀ i, (∀ j, j ≤ i → (nthBucket counts j).IsWindowClosed = false) →
      endScan counts i = none := by
  intro i
  induction i with
  | zero =>
    intro h
    unfold endScan
    simp [h 0 (Nat.le_refl 0)]
  | succ j ih =>
    intro h
    unfold endScan
    simp [h (j + 1) (Nat.le_refl _)]
    exact ih fun k hk => h k (Nat.le_succ_of_le hk)

theorem startScan_spec (now lb : Int) (counts : List TimestampedCounts) :
    ∀ i si,
      (startCond now lb counts i = false → startScan now lb counts si i = si) ∧
      (startCond now lb counts i = true →
        startScan now lb counts si i ≤ i ∧
        (∀ j, startScan now lb counts si i ≤ j → j ≤ i →
          startCond now lb counts j = true) ∧
        (startScan now lb counts si i = 0 ∨
          startCond now lb counts (startScan now lb counts si i - 1) = false)) := by
  intro i
  induction i with
  | zero =>
    intro si
    constructor
    · intro hc
      simp [startScan, hc]
    · intro hc
      simp only [startScan, hc, if_true]
      refine ⟨Nat.le_refl 0, fun j h0 hj => ?_, Or.inl (by trivial)⟩
      have : j = 0 := Nat.le_antisymm hj (Nat.zero_le j)
      subst this
      exact hc
  | succ j ih =>
    intro si
    constructor
    · intro hc
      simp [startScan, hc]
    · intro hc
      simp only [startScan, hc, if_true]
      by_cases hj : startCond now lb counts j = true
      · obtain ⟨h1, h2, h3⟩ := (ih (j + 1)).2 hj
        refine ⟨Nat.le_succ_of_le h1, fun k hk hk' => ?_, h3⟩
        rcases Nat.lt_or_ge k (j + 1) with hlt | hge
        · exact h2 k hk (Nat.lt_succ_iff.mp hlt)
        · have : k = j + 1 := Nat.le_antisymm hk' hge
          subst this
          exact hc
      · have hj' : startCond now lb counts j = false := by
          simpa using hj
        have heq : startScan now lb counts (j + 1) j = j + 1 := (ih (j + 1)).1 hj'
        rw [heq]
        refine ⟨Nat.le_refl _, fun k hk hk' => ?_, Or.inr ?_⟩
        · have : k = j + 1 := Nat.le_antisymm hk' hk
          subst this
          exact hc
        · simpa using hj'

theorem findStartIndex_eq_some (now lb : Int) (counts : List TimestampedCounts)
    (si : Nat) (h : findStartIndex now lb counts = some si) :
    2 ≤ counts.length ∧
    now - (nthBucket counts (counts.length - 2)).timestamp ≤ lb ∧
    si = startScan now lb counts (counts.length - 2) (counts.length - 2) := by
  unfold findStartIndex at h
  by_cases hg : counts.length < 2 ∨ lb < now - (nthBucket counts (counts.length - 2)).timestamp
  · simp [hg] at h
  · push_neg at hg
    simp [hg.1, hg.2, Or.elim] at h
    exact ⟨Nat.le_of_not_lt (by omega), hg.2, h.symm⟩

/-! ## Claim theorems -/

/-- Claim C7: for every history snapshot containing zero or one buckets,
`CalculateRate` returns 0, for every lookback and partition name; the
degenerate outcome is the plain return value 0 (the function is total and
returns a rate, never an error). -/
theorem calculateRate_insufficient_history_zero
    (q : OverflowQueue TimestampedCounts) (h : q.Items.length ≤ 1) :
    ∀ (now lookbackSeconds : Int) (partitionName : String),
      CalculateRate q now lookbackSeconds partitionName = 0 := by
  intro now lb p
  exact calculateRate_of_length_le_one q now lb p h

/-- Claim C7 witness: a concrete single-bucket history yields rate 0. -/
theorem calculateRate_insufficient_history_zero_witness :
    ({ elements := [NewTimestampedCounts 100], maxsize := 100 } :
        OverflowQueue TimestampedCounts).Items.length ≤ 1 ∧
    CalculateRate
      { elements := [NewTimestampedCounts 100], maxsize := 100 } 120 20 "p1" = 0 :=
  ⟨by decide,
   calculateRate_insufficient_history_zero
     { elements := [NewTimestampedCounts 100], maxsize := 100 } (by decide) 120 20 "p1"⟩

/-- Claim C5: for every history snapshot of at least two buckets whose
second-to-last bucket is older than `now - lookbackSeconds`, `CalculateRate`
returns 0, regardless of the other buckets in the history. -/
theorem calculateRate_stale_second_last_zero
    (q : OverflowQueue TimestampedCounts) (now lookbackSeconds : Int)
    (partitionName : String) (h2 : 2 ≤ q.Items.length)
    (hstale : (nthBucket q.Items (q.Items.length - 2)).timestamp < now - lookbackSeconds) :
    CalculateRate q now lookbackSeconds partitionName = 0 := by
  apply calculateRate_of_startIndex_none
  unfold findStartIndex
  have : lookbackSeconds < now - (nthBucket q.Items (q.Items.length - 2)).timestamp := by
    omega
  simp [this]

/-- Claim C5 witness: a two-bucket history whose second-to-last bucket is
stale yields rate 0 (`now = 200`, lookback 20, bucket timestamps 100, 110). -/
theorem calculateRate_stale_second_last_zero_witness :
    2 ≤ ({ elements := [NewTimestampedCounts 100, NewTimestampedCounts 110], maxsize := 100 } :
          OverflowQueue TimestampedCounts).Items.length ∧
    (nthBucket ({ elements := [NewTimestampedCounts 100, NewTimestampedCounts 110], maxsize := 100 } :
          OverflowQueue TimestampedCounts).Items
        (({ elements := [NewTimestampedCounts 100, NewTimestampedCounts 110], maxsize := 100 } :
          OverflowQueue TimestampedCounts).Items.length - 2)).timestamp < 200 - 20 ∧
    CalculateRate
      { elements := [NewTimestampedCounts 100, NewTimestampedCounts 110], maxsize := 100 }
      200 20 "p1" = 0 :=
  ⟨by decide, by decide,
   calculateRate_stale_second_last_zero
     { elements := [NewTimestampedCounts 100, NewTimestampedCounts 110], maxsize := 100 }
     200 20 "p1" (by decide) (by decide)⟩

/-- Claim C8: whenever the buckets at the computed start and end indices carry
equal timestamps, `CalculateRate` returns 0 without dividing; the function is
total (it returns a rational for every input by construction, so the division
is never evaluated with a zero divisor). -/
theorem calculateRate_zero_time_diff_zero
    (q : OverflowQueue TimestampedCounts) (now lookbackSeconds : Int)
    (partitionName : String) (si ei : Nat)
    (hs : findStartIndex now lookbackSeconds q.Items = some si)
    (he : findEndIndex q.Items = some ei)
    (ht : (nthBucket q.Items ei).timestamp = (nthBucket q.Items si).timestamp) :
    CalculateRate q now lookbackSeconds partitionName = 0 := by
  have h2 : 2 ≤ q.Items.length :=
    (findStartIndex_eq_some now lookbackSeconds q.Items si hs).1
  have hl : ¬ q.Items.length ≤ 1 := by omega
  unfold CalculateRate
  simp only [hl, if_false, hs, he]
  have : (nthBucket q.Items ei).timestamp - (nthBucket q.Items si).timestamp = 0 := by
    omega
  simp [this]

/-- A concrete closed bucket used by several witnesses. -/
def closedBucketAt (t : Int) : TimestampedCounts :=
  { timestamp := t, podPartitionCount := [], isWindowClosed := true, delta := [] }

/-- Claim C8 witness: two closed buckets with the same timestamp — both
indices are found, the timestamps coincide, and the rate is 0. -/
theorem calculateRate_zero_time_diff_zero_witness :
    findStartIndex 100 20
        ({ elements := [closedBucketAt 100, closedBucketAt 100], maxsize := 100 } :
          OverflowQueue TimestampedCounts).Items = some 0 ∧
    findEndIndex
        ({ elements := [closedBucketAt 100, closedBucketAt 100], maxsize := 100 } :
          OverflowQueue TimestampedCounts).Items = some 1 ∧
    CalculateRate
      { elements := [closedBucketAt 100, closedBucketAt 100], maxsize := 100 }
      100 20 "p1" = 0 :=
  ⟨by decide, by decide,
   calculateRate_zero_time_diff_zero
     { elements := [closedBucketAt 100, closedBucketAt 100], maxsize := 100 }
     100 20 "p1" 0 1 (by decide) (by decide) (by decide)⟩

/-- Claim C6: the end index used by `CalculateRate` is the most recent bucket
with a closed window — whenever `findEndIndex` returns an index, that bucket
is closed, in range, and every later bucket is open; and when no bucket of the
history is closed, `findEndIndex` finds nothing and `CalculateRate` returns 0. -/
theorem findEndIndex_most_recent_closed
    (q : OverflowQueue TimestampedCounts) (now lookbackSeconds : Int)
    (partitionName : String) :
    (∀ ei, findEndIndex q.Items = some ei →
      (nthBucket q.Items ei).IsWindowClosed = true ∧ ei < q.Items.length ∧
      ∀ j, ei < j → j < q.Items.length → (nthBucket q.Items j).IsWindowClosed = false) ∧
    ((∀ j, j < q.Items.length → (nthBucket q.Items j).IsWindowClosed = false) →
      findEndIndex q.Items = none ∧
      CalculateRate q now lookbackSeconds partitionName = 0) := by
  constructor
  · intro ei h
    unfold findEndIndex at h
    cases hn : q.Items.length with
    | zero => simp [hn] at h
    | succ n =>
      rw [hn] at h
      obtain ⟨h1, h2, h3⟩ := endScan_some_spec q.Items n ei h
      refine ⟨h1, by omega, fun j hj hj' => h3 j hj (by omega)⟩
  · intro hall
    cases hn : q.Items.length with
    | zero =>
      refine ⟨by unfold findEndIndex; simp [hn], ?_⟩
      exact calculateRate_of_length_le_one q now lookbackSeconds partitionName (by omega)
    | succ n =>
      have hnone : findEndIndex q.Items = none := by
        unfold findEndIndex
        rw [hn]
        exact endScan_none_of_all_open q.Items n fun j hj => hall j (by omega)
      exact ⟨hnone,
        calculateRate_of_endIndex_none q now lookbackSeconds partitionName hnone⟩

/-- A concrete four-bucket history: closed, open, closed, open. -/
def exMixedQueue : OverflowQueue TimestampedCounts :=
  { elements := [closedBucketAt 100, NewTimestampedCounts 110,
                 closedBucketAt 120, NewTimestampedCounts 130], maxsize := 100 }

/-- A concrete two-bucket history with both windows open. -/
def exOpenQueue : OverflowQueue TimestampedCounts :=
  { elements := [NewTimestampedCounts 100, NewTimestampedCounts 110], maxsize := 100 }

/-- Claim C6 witness: on a history with buckets closed, open, closed, open the
end index is 2 (the most recent closed bucket); and on an all-open history the
end index is absent and the rate is 0. -/
theorem findEndIndex_most_recent_closed_witness :
    (nthBucket exMixedQueue.Items 2).IsWindowClosed = true ∧
    findEndIndex exOpenQueue.Items = none ∧
    CalculateRate exOpenQueue 110 20 "p1" = 0 := by
  refine ⟨?_, ?_, ?_⟩
  · exact ((findEndIndex_most_recent_closed exMixedQueue 110 20 "p1").1 2 (by decide)).1
  · exact ((findEndIndex_most_recent_closed exOpenQueue 110 20 "p1").2 (by decide)).1
  · exact ((findEndIndex_most_recent_closed exOpenQueue 110 20 "p1").2 (by decide)).2

theorem startCond_eq_true_iff (now lb : Int) (counts : List TimestampedCounts)
    (i : Nat) :
    startCond now lb counts i = true ↔
      now - (nthBucket counts i).timestamp ≤ lb ∧
      (nthBucket counts i).IsWindowClosed = true := by
  simp [startCond, Bool.and_eq_true, decide_eq_true_iff]

/-- Claim C3 counterexample: a two-bucket history whose buckets are all open,
with the second-to-last bucket within the lookback window (`now = 110`,
lookback 20, timestamps 100 and 110): `findStartIndex` returns index 0, whose
window is not closed — refuting that the returned start index always refers
to a closed bucket. -/
theorem findStartIndex_open_start_counterexample :
    2 ≤ exOpenQueue.Items.length ∧
    110 - (nthBucket exOpenQueue.Items (exOpenQueue.Items.length - 2)).timestamp ≤ 20 ∧
    findStartIndex 110 20 exOpenQueue.Items = some 0 ∧
    (nthBucket exOpenQueue.Items 0).IsWindowClosed = false := by
  refine ⟨by decide, by decide, by decide, by decide⟩

/-- Claim C3 (amended): for a history of at least two buckets whose
second-to-last bucket is within the lookback window, `findStartIndex` returns
a start index within the lookback window; when the second-to-last bucket's
window is closed the returned bucket is closed, every bucket between it and
the second-to-last satisfies both conditions, and the backward scan stopped at
the first bucket violating either condition; when the second-to-last bucket's
window is open, the returned index is the second-to-last index itself (whose
window is not closed). -/
theorem findStartIndex_lookback_start (now lb : Int)
    (counts : List TimestampedCounts) (h2 : 2 ≤ counts.length)
    (hin : now - (nthBucket counts (counts.length - 2)).timestamp ≤ lb) :
    ∃ si, findStartIndex now lb counts = some si ∧
      now - (nthBucket counts si).timestamp ≤ lb ∧
      ((nthBucket counts (counts.length - 2)).IsWindowClosed = false →
        si = counts.length - 2) ∧
      ((nthBucket counts (counts.length - 2)).IsWindowClosed = true →
        (nthBucket counts si).IsWindowClosed = true ∧
        (∀ j, si ≤ j → j ≤ counts.length - 2 →
          now - (nthBucket counts j).timestamp ≤ lb ∧
          (nthBucket counts j).IsWindowClosed = true) ∧
        (si = 0 ∨
          ¬(now - (nthBucket counts (si - 1)).timestamp ≤ lb ∧
            (nthBucket counts (si - 1)).IsWindowClosed = true))) := by
  have hg : ¬(counts.length < 2 ∨ lb < now - (nthBucket counts (counts.length - 2)).timestamp) := by
    push_neg
    exact ⟨by omega, by omega⟩
  refine ⟨startScan now lb counts (counts.length - 2) (counts.length - 2), ?_, ?_⟩
  · unfold findStartIndex
    simp [hg]
  · by_cases hcl : (nthBucket counts (counts.length - 2)).IsWindowClosed = true
    · have hcond : startCond now lb counts (counts.length - 2) = true :=
        (startCond_eq_true_iff now lb counts _).mpr ⟨hin, hcl⟩
      obtain ⟨hle, hall, hstop⟩ :=
        (startScan_spec now lb counts (counts.length - 2) (counts.length - 2)).2 hcond
      have hsi :=
        (startCond_eq_true_iff now lb counts _).mp (hall _ (Nat.le_refl _) hle)
      refine ⟨hsi.1, ?_, ?_⟩
      · intro hopen
        rw [hcl] at hopen
        cases hopen
      intro _
      refine ⟨hsi.2, fun j hj hj' =>
        (startCond_eq_true_iff now lb counts j).mp (hall j hj hj'), ?_⟩
      rcases hstop with h0 | hfail
      · exact Or.inl h0
      · refine Or.inr fun hboth => ?_
        rw [(startCond_eq_true_iff now lb counts _).mpr hboth] at hfail
        cases hfail
    · have hcl' : (nthBucket counts (counts.length - 2)).IsWindowClosed = false := by
        simpa using hcl
      have hcond : startCond now lb counts (counts.length - 2) = false := by
        simp [startCond, hcl']
      have heq := (startScan_spec now lb counts (counts.length - 2) (counts.length - 2)).1 hcond
      rw [heq]
      exact ⟨hin, fun _ => rfl, fun habs => by rw [habs] at hcl'; cases hcl'⟩

/-- A concrete three-bucket history: closed at 100, closed at 110, open at
120 — the shape `UpdateCount` ingestion produces. -/
def exClosedQueue : OverflowQueue TimestampedCounts :=
  { elements := [closedBucketAt 100, closedBucketAt 110, NewTimestampedCounts 120]
    maxsize := 100 }

/-- Claim C3 witness: a three-bucket history (closed at 100, closed at 110,
open at 120) with `now = 120` and lookback 20 — the amended characterization
applied at a concrete input. -/
theorem findStartIndex_lookback_start_witness :
    ∃ si, findStartIndex 120 20 exClosedQueue.Items = some si ∧
      120 - (nthBucket exClosedQueue.Items si).timestamp ≤ 20 ∧
      ((nthBucket exClosedQueue.Items (exClosedQueue.Items.length - 2)).IsWindowClosed = false →
        si = exClosedQueue.Items.length - 2) ∧
      ((nthBucket exClosedQueue.Items (exClosedQueue.Items.length - 2)).IsWindowClosed = true →
        (nthBucket exClosedQueue.Items si).IsWindowClosed = true ∧
        (∀ j, si ≤ j → j ≤ exClosedQueue.Items.length - 2 →
          120 - (nthBucket exClosedQueue.Items j).timestamp ≤ 20 ∧
          (nthBucket exClosedQueue.Items j).IsWindowClosed = true) ∧
        (si = 0 ∨
          ¬(120 - (nthBucket exClosedQueue.Items (si - 1)).timestamp ≤ 20 ∧
            (nthBucket exClosedQueue.Items (si - 1)).IsWindowClosed = true))) :=
  findStartIndex_lookback_start 120 20 exClosedQueue.Items (by decide) (by decide)

theorem foldl_guarded_add (cl : Nat → Bool) (f : Nat → ℚ) :
    ∀ (l : List Nat) (c : ℚ),
      l.foldl (fun d i => if cl i then d + f i else d) c =
      c + (l.map fun i => if cl i then f i else 0).sum := by
  intro l
  induction l with
  | nil => intro c; simp
  | cons a l ih =>
    intro c
    have hstep : (if cl a then c + f a else c) = c + (if cl a then f a else 0) := by
      by_cases h : cl a <;> simp [h]
    simp only [List.foldl_cons, List.map_cons, List.sum_cons, ih, hstep, add_assoc]

theorem range'_map_sum (g : Nat → ℚ) :
    ∀ (k s : Nat), ((List.range' s k).map g).sum = Finset.sum (Finset.Ico s (s + k)) g := by
  intro k
  induction k with
  | zero => intro s; simp
  | succ k ih =>
    intro s
    have hb : s + 1 + k = s + (k + 1) := by omega
    rw [List.range'_succ, List.map_cons, List.sum_cons, ih (s + 1), hb,
      Finset.sum_eq_sum_Ico_succ_bot (by omega : s < s + (k + 1)) g]

theorem deltaAccum_eq_sum (counts : List TimestampedCounts) (p : String)
    (si ei : Nat) :
    deltaAccum counts p si ei =
      Finset.sum (Finset.Ico si ei) fun i =>
        if (nthBucket counts (i + 1)).IsWindowClosed then
          calculatePartitionDelta (nthBucket counts (i + 1)) p
        else 0 := by
  unfold deltaAccum
  rw [foldl_guarded_add (fun i => (nthBucket counts (i + 1)).IsWindowClosed)
    (fun i => calculatePartitionDelta (nthBucket counts (i + 1)) p), zero_add,
    range'_map_sum]
  rcases Nat.le_total si ei with h | h
  · rw [Nat.add_sub_cancel' h]
  · rcases Nat.lt_or_ge ei si with h' | h'
    · have hz : ei - si = 0 := by omega
      rw [hz, Nat.add_zero, Finset.Ico_self, Finset.Ico_eq_empty (by omega)]
    · have : si = ei := by omega
      subst this
      simp

/-- Claim C2: whenever `CalculateRate` reaches its summation step (both
indices found and the time difference nonzero), the returned rate is the sum,
over `i` from the start index up to the end index minus one and only for
buckets `i+1` whose window is closed, of the per-pod delta-snapshot values of
bucket `i+1` for the named partition, divided by the timestamp difference
between the end-index and start-index buckets. -/
theorem calculateRate_summation
    (q : OverflowQueue TimestampedCounts) (now lookbackSeconds : Int)
    (partitionName : String) (si ei : Nat)
    (hs : findStartIndex now lookbackSeconds q.Items = some si)
    (he : findEndIndex q.Items = some ei)
    (ht : (nthBucket q.Items ei).timestamp ≠ (nthBucket q.Items si).timestamp) :
    CalculateRate q now lookbackSeconds partitionName =
      (Finset.sum (Finset.Ico si ei) fun i =>
        if (nthBucket q.Items (i + 1)).IsWindowClosed then
          calculatePartitionDelta (nthBucket q.Items (i + 1)) partitionName
        else 0) /
      (((nthBucket q.Items ei).timestamp - (nthBucket q.Items si).timestamp : Int) : ℚ) := by
  have h2 : 2 ≤ q.Items.length :=
    (findStartIndex_eq_some now lookbackSeconds q.Items si hs).1
  have hl : ¬ q.Items.length ≤ 1 := by omega
  have hd : ¬((nthBucket q.Items ei).timestamp - (nthBucket q.Items si).timestamp = 0) :=
    sub_ne_zero_of_ne ht
  unfold CalculateRate
  simp only [hl, if_false, hs, he, hd, deltaAccum_eq_sum]

/-- Claim C2 witness: on the three-bucket history closed-closed-open at
`now = 120` with lookback 20, the rate equals the closed-window delta sum
over the index range `[0, 1)` divided by the timestamp difference. -/
theorem calculateRate_summation_witness :
    CalculateRate exClosedQueue 120 20 "p1" =
      (Finset.sum (Finset.Ico 0 1) fun i =>
        if (nthBucket exClosedQueue.Items (i + 1)).IsWindowClosed then
          calculatePartitionDelta (nthBucket exClosedQueue.Items (i + 1)) "p1"
        else 0) /
      (((nthBucket exClosedQueue.Items 1).timestamp -
          (nthBucket exClosedQueue.Items 0).timestamp : Int) : ℚ) :=
  calculateRate_summation exClosedQueue 120 20 "p1" 0 1
    (by decide) (by decide) (by decide)

theorem lookupOr0_nonneg (m : PartitionCountMap) (k : String)
    (h : ∀ pe ∈ m, 0 ≤ pe.2) : 0 ≤ lookupOr0 m k := by
  unfold lookupOr0
  cases hf : m.find? (fun e => e.1 == k) with
  | none => exact le_refl 0
  | some pe => exact h pe (List.mem_of_find?_eq_some hf)

theorem calculatePartitionDelta_nonneg (tc : TimestampedCounts) (p : String)
    (h : ∀ e ∈ tc.delta, ∀ pe ∈ e.2, 0 ≤ pe.2) :
    0 ≤ calculatePartitionDelta tc p := by
  unfold calculatePartitionDelta TimestampedCounts.PodDeltaCountSnapshot
  apply List.sum_nonneg
  intro x hx
  obtain ⟨e, he, rfl⟩ := List.mem_map.mp hx
  exact lookupOr0_nonneg e.2 p (h e he)

theorem nthBucket_delta_nonneg (counts : List TimestampedCounts)
    (h : ∀ tc ∈ counts, ∀ e ∈ tc.delta, ∀ pe ∈ e.2, 0 ≤ pe.2) (i : Nat) :
    ∀ e ∈ (nthBucket counts i).delta, ∀ pe ∈ e.2, 0 ≤ pe.2 := by
  unfold nthBucket
  rw [List.getD_eq_getElem?_getD]
  cases hg : counts[i]? with
  | none => simp [NewTimestampedCounts]
  | some tc =>
    simp only [Option.getD_some]
    exact h tc (List.getElem?_mem hg)

theorem nthBucket_eq_get (counts : List TimestampedCounts) (i : Nat)
    (h : i < counts.length) : nthBucket counts i = counts.get ⟨i, h⟩ := by
  unfold nthBucket
  rw [List.getD_eq_getElem?_getD, List.getElem?_eq_getElem h]
  rfl

theorem findStartIndex_le (now lb : Int) (counts : List TimestampedCounts)
    (si : Nat) (h : findStartIndex now lb counts = some si) :
    si ≤ counts.length - 2 := by
  obtain ⟨h2, hin, hsi⟩ := findStartIndex_eq_some now lb counts si h
  by_cases hc : startCond now lb counts (counts.length - 2) = true
  · rw [hsi]
    exact ((startScan_spec now lb counts (counts.length - 2) (counts.length - 2)).2 hc).1
  · rw [hsi, (startScan_spec now lb counts (counts.length - 2) (counts.length - 2)).1
      (by simpa using hc)]

theorem findEndIndex_lt (counts : List TimestampedCounts) (ei : Nat)
    (h : findEndIndex counts = some ei) : ei < counts.length := by
  unfold findEndIndex at h
  cases hn : counts.length with
  | zero => rw [hn] at h; cases h
  | succ n =>
    rw [hn] at h
    have := (endScan_some_spec counts n ei h).2.1
    omega

/-- Claim C10: on a history snapshot (strictly increasing timestamps, as the
append-only ingestion maintains) in which every bucket's per-pod
delta-snapshot values are nonnegative, `CalculateRate` is nonnegative; and
whenever the computed end index does not exceed the start index the summation
range is empty and the result is exactly 0, never a negative rate. -/
theorem calculateRate_nonneg (q : OverflowQueue TimestampedCounts)
    (now lookbackSeconds : Int) (partitionName : String) :
    (List.Pairwise (fun a b => a.timestamp < b.timestamp) q.Items →
      (∀ tc ∈ q.Items, ∀ e ∈ tc.delta, ∀ pe ∈ e.2, 0 ≤ pe.2) →
      0 ≤ CalculateRate q now lookbackSeconds partitionName) ∧
    (∀ si ei, findStartIndex now lookbackSeconds q.Items = some si →
      findEndIndex q.Items = some ei → ei ≤ si →
      CalculateRate q now lookbackSeconds partitionName = 0) := by
  constructor
  · intro hsorted hnn
    unfold CalculateRate
    by_cases hl : q.Items.length ≤ 1
    · simp [hl]
    simp only [hl, if_false]
    cases hs : findStartIndex now lookbackSeconds q.Items with
    | none => exact le_refl 0
    | some si =>
      cases he : findEndIndex q.Items with
      | none => exact le_refl 0
      | some ei =>
        simp only
        by_cases htd :
            (nthBucket q.Items ei).timestamp - (nthBucket q.Items si).timestamp = 0
        · simp [htd]
        simp only [htd, if_false]
        rcases Nat.lt_or_ge si ei with hlt | hge
        · have hei : ei < q.Items.length := findEndIndex_lt q.Items ei he
          have hsi : si < q.Items.length := by omega
          have hmono : (nthBucket q.Items si).timestamp < (nthBucket q.Items ei).timestamp := by
            rw [nthBucket_eq_get q.Items si hsi, nthBucket_eq_get q.Items ei hei]
            exact List.pairwise_iff_get.mp hsorted ⟨si, hsi⟩ ⟨ei, hei⟩ hlt
          apply div_nonneg
          · rw [deltaAccum_eq_sum]
            apply Finset.sum_nonneg
            intro i _
            by_cases hc : (nthBucket q.Items (i + 1)).IsWindowClosed
            · simp only [hc, if_true]
              exact calculatePartitionDelta_nonneg _ _
                (nthBucket_delta_nonneg q.Items hnn (i + 1))
            · simp [hc]
          · have : (0 : Int) ≤ (nthBucket q.Items ei).timestamp - (nthBucket q.Items si).timestamp := by
              omega
            exact_mod_cast this
        · have hz : ei - si = 0 := by omega
          unfold deltaAccum
          rw [hz]
          simp [List.range']
  · intro si ei hs he hle
    have h2 : 2 ≤ q.Items.length :=
      (findStartIndex_eq_some now lookbackSeconds q.Items si hs).1
    have hl : ¬ q.Items.length ≤ 1 := by omega
    unfold CalculateRate
    simp only [hl, if_false, hs, he]
    by_cases htd :
        (nthBucket q.Items ei).timestamp - (nthBucket q.Items si).timestamp = 0
    · simp [htd]
    · have hz : ei - si = 0 := by omega
      unfold deltaAccum
      rw [hz]
      simp [htd, List.range']

/-- A concrete three-bucket history where only the oldest bucket is closed, so
the end index (0) precedes the start index (1). -/
def exEndBeforeStartQueue : OverflowQueue TimestampedCounts :=
  { elements := [closedBucketAt 100, NewTimestampedCounts 110, NewTimestampedCounts 120]
    maxsize := 100 }

/-- Claim C10 witness: a sorted nonnegative history has a nonnegative rate,
and a history whose end index precedes its start index yields exactly 0. -/
theorem calculateRate_nonneg_witness :
    0 ≤ CalculateRate exClosedQueue 120 20 "p1" ∧
    CalculateRate exEndBeforeStartQueue 120 20 "p1" = 0 :=
  ⟨(calculateRate_nonneg exClosedQueue 120 20 "p1").1 (by decide) (by decide),
   (calculateRate_nonneg exEndBeforeStartQueue 120 20 "p1").2 1 0
     (by decide) (by decide) (by decide)⟩

theorem closeWindow_timestamp (tc : TimestampedCounts) (prev : Option TimestampedCounts) :
    (tc.CloseWindow prev).timestamp = tc.timestamp := by
  unfold TimestampedCounts.CloseWindow
  by_cases h : tc.isWindowClosed <;> simp [h]

theorem closeWindow_podPartitionCount (tc : TimestampedCounts)
    (prev : Option TimestampedCounts) :
    (tc.CloseWindow prev).podPartitionCount = tc.podPartitionCount := by
  unfold TimestampedCounts.CloseWindow
  by_cases h : tc.isWindowClosed <;> simp [h]

theorem update_isWindowClosed (tc : TimestampedCounts) (r : PodReadCount) :
    (tc.Update r).isWindowClosed = tc.isWindowClosed := rfl

theorem update_delta (tc : TimestampedCounts) (r : PodReadCount) :
    (tc.Update r).delta = tc.delta := rfl

theorem update_timestamp (tc : TimestampedCounts) (r : PodReadCount) :
    (tc.Update r).timestamp = tc.timestamp := rfl

theorem closeMostRecent_length :
    ∀ l : List TimestampedCounts, (closeMostRecent l).length = l.length
  | [] => rfl
  | [_] => rfl
  | [_, _] => rfl
  | a :: b :: c :: rest => by
    simp only [closeMostRecent, List.length_cons]
    rw [closeMostRecent_length (b :: c :: rest)]
    simp

theorem closeMostRecent_prefix :
    ∀ (l : List TimestampedCounts) (j : Nat), j + 1 < l.length →
      nthBucket (closeMostRecent l) j = nthBucket l j
  | [], _, h => by simp at h
  | [_], j, h => by simp at h
  | [a, b], j, h => by
    have : j = 0 := by simp at h; omega
    subst this
    rfl
  | a :: b :: c :: rest, j, h => by
    cases j with
    | zero => rfl
    | succ k =>
      show nthBucket (closeMostRecent (b :: c :: rest)) k = nthBucket (b :: c :: rest) k
      exact closeMostRecent_prefix (b :: c :: rest) k (by simp at h ⊢; omega)

theorem closeMostRecent_last_fields :
    ∀ l : List TimestampedCounts, 1 ≤ l.length →
      (nthBucket (closeMostRecent l) (l.length - 1)).timestamp =
        (nthBucket l (l.length - 1)).timestamp ∧
      (nthBucket (closeMostRecent l) (l.length - 1)).podPartitionCount =
        (nthBucket l (l.length - 1)).podPartitionCount
  | [], h => by simp at h
  | [a], _ => by
    simpa using ⟨closeWindow_timestamp a none, closeWindow_podPartitionCount a none⟩
  | [a, b], _ => by
    simpa using ⟨closeWindow_timestamp b (some a), closeWindow_podPartitionCount b (some a)⟩
  | a :: b :: c :: rest, _ => by
    have ih := closeMostRecent_last_fields (b :: c :: rest) (by simp)
    have hlen : (a :: b :: c :: rest).length - 1 = ((b :: c :: rest).length - 1) + 1 := by
      simp
    rw [hlen]
    show (nthBucket (closeMostRecent (b :: c :: rest)) _).timestamp = _ ∧
      (nthBucket (closeMostRecent (b :: c :: rest)) _).podPartitionCount = _
    exact ih

theorem nthBucket_append_lt :
    ∀ (l l' : List TimestampedCounts) (j : Nat), j < l.length →
      nthBucket (l ++ l') j = nthBucket l j
  | [], _, _, h => by simp at h
  | a :: l, l', 0, _ => rfl
  | a :: l, l', j + 1, h =>
    nthBucket_append_lt l l' j (by simp at h; omega)

theorem nthBucket_append_length :
    ∀ (l : List TimestampedCounts) (x : TimestampedCounts),
      nthBucket (l ++ [x]) l.length = x
  | [], x => rfl
  | a :: l, x => nthBucket_append_length l x

theorem closeMostRecent_eq :
    ∀ l : List TimestampedCounts, 2 ≤ l.length →
      closeMostRecent l = l.take (l.length - 1) ++
        [(nthBucket l (l.length - 1)).CloseWindow (some (nthBucket l (l.length - 2)))]
  | [], h => by simp at h
  | [_], h => by simp at h
  | [a, b], _ => rfl
  | a :: b :: c :: rest, _ => by
    have ih := closeMostRecent_eq (b :: c :: rest) (by simp)
    show a :: closeMostRecent (b :: c :: rest) = _
    rw [ih]
    have h1 : (a :: b :: c :: rest).length - 1 = ((b :: c :: rest).length - 1) + 1 := by
      simp
    have h2 : (a :: b :: c :: rest).length - 2 = ((b :: c :: rest).length - 2) + 1 := by
      simp
    rw [h1, h2, List.take_succ_cons, nthBucket_cons_succ, nthBucket_cons_succ]
    simp

theorem updateFirstMatch_length :
    ∀ (l : List TimestampedCounts) (t : Int) (r : PodReadCount),
      (updateFirstMatch l t r).length = l.length
  | [], _, _ => rfl
  | a :: l, t, r => by
    unfold updateFirstMatch
    by_cases h : (a.timestamp == t) = true <;>
      simp [h, updateFirstMatch_length l t r]

theorem updateFirstMatch_closed :
    ∀ (l : List TimestampedCounts) (t : Int) (r : PodReadCount) (j : Nat),
      (nthBucket (updateFirstMatch l t r) j).isWindowClosed =
        (nthBucket l j).isWindowClosed ∧
      (nthBucket (updateFirstMatch l t r) j).delta = (nthBucket l j).delta
  | [], _, _, _ => ⟨rfl, rfl⟩
  | a :: l, t, r, j => by
    unfold updateFirstMatch
    by_cases h : (a.timestamp == t) = true
    · simp only [h, if_true]
      cases j with
      | zero => exact ⟨rfl, rfl⟩
      | succ k => exact ⟨rfl, rfl⟩
    · simp only [h, if_false]
      cases j with
      | zero => exact ⟨rfl, rfl⟩
      | succ k => exact updateFirstMatch_closed l t r k

theorem updateFirstMatch_eq_set :
    ∀ (l : List TimestampedCounts) (t : Int) (r : PodReadCount) (j : Nat),
      j < l.length → (nthBucket l j).timestamp = t →
      (∀ k, k < j → (nthBucket l k).timestamp ≠ t) →
      updateFirstMatch l t r = l.set j ((nthBucket l j).Update r)
  | [], _, _, j, h, _, _ => absurd h (by simp)
  | a :: l, t, r, 0, _, hm, _ => by
    unfold updateFirstMatch
    have hb : (a.timestamp == t) = true := by
      rw [nthBucket_cons_zero] at hm
      simpa [beq_iff_eq] using hm
    simp only [hb, if_true, List.set_cons_zero, nthBucket_cons_zero]
  | a :: l, t, r, j + 1, h, hm, hf => by
    unfold updateFirstMatch
    have hb : (a.timestamp == t) = false := by
      have := hf 0 (Nat.succ_pos j)
      rw [nthBucket_cons_zero] at this
      simpa [beq_iff_eq] using this
    simp only [hb, if_false, List.set_cons_succ, nthBucket_cons_succ]
    rw [updateFirstMatch_eq_set l t r j (by simp at h; omega)
      (by rw [nthBucket_cons_succ] at hm; exact hm)
      (fun k hk => by
        have := hf (k + 1) (by omega)
        rwa [nthBucket_cons_succ] at this)]
    simp

theorem updateCount_match_items (q : OverflowQueue TimestampedCounts) (t : Int)
    (r : PodReadCount) (hex : ∃ i ∈ q.Items, i.timestamp = t) :
    (UpdateCount q t r).Items = updateFirstMatch q.Items t r := by
  unfold UpdateCount
  have hany : q.Items.any (fun i => i.timestamp == t) = true := by
    rcases hex with ⟨i, hi, hti⟩
    exact List.any_eq_true.mpr ⟨i, hi, by simpa [beq_iff_eq] using hti⟩
  simp only [OverflowQueue.Items] at hany ⊢
  rw [hany]
  simp

theorem updateCount_nomatch_items (q : OverflowQueue TimestampedCounts) (t : Int)
    (r : PodReadCount) (hno : ∀ i ∈ q.Items, i.timestamp ≠ t)
    (hcap : q.Items.length < q.maxsize) :
    (UpdateCount q t r).Items =
      closeMostRecent q.Items ++ [(NewTimestampedCounts t).Update r] := by
  unfold UpdateCount
  have hany : q.Items.any (fun i => i.timestamp == t) = false := by
    rw [List.any_eq_false]
    intro i hi
    simpa [beq_iff_eq] using hno i hi
  have hlen : ¬ q.maxsize <
      (closeMostRecent q.Items ++ [(NewTimestampedCounts t).Update r]).length := by
    rw [List.length_append, closeMostRecent_length]
    simp only [List.length_singleton]
    have : q.Items.length < q.maxsize := hcap
    simp only [OverflowQueue.Items] at this
    omega
  simp only [OverflowQueue.Items] at hany hlen ⊢
  rw [hany]
  simp only [Bool.false_eq_true, if_false, OverflowQueue.Append]
  simp only [List.length_append, closeMostRecent_length, List.length_singleton] at hlen
  simp [hlen, closeMostRecent_length]

/-- Claim C1: `UpdateCount` ingestion transitions — if a bucket with the given
timestamp exists (first match), only that bucket is updated in place and
nothing is closed or appended; otherwise (given spare capacity so the bounded
history does not evict) an empty history just gains the new open bucket, a
one-bucket history closes its single bucket with `nil` baseline before the
append, and a history of two or more buckets closes its most recent bucket
with the second-most-recent as baseline before the append. -/
theorem updateCount_transition_cases (q : OverflowQueue TimestampedCounts)
    (t : Int) (r : PodReadCount) :
    (∀ j, j < q.Items.length → (nthBucket q.Items j).timestamp = t →
      (∀ k, k < j → (nthBucket q.Items k).timestamp ≠ t) →
      (UpdateCount q t r).Items = q.Items.set j ((nthBucket q.Items j).Update r)) ∧
    ((∀ i ∈ q.Items, i.timestamp ≠ t) → q.Items.length < q.maxsize →
      (q.Items = [] → (UpdateCount q t r).Items = [(NewTimestampedCounts t).Update r]) ∧
      (∀ a, q.Items = [a] →
        (UpdateCount q t r).Items =
          [a.CloseWindow none, (NewTimestampedCounts t).Update r]) ∧
      (2 ≤ q.Items.length →
        (UpdateCount q t r).Items =
          q.Items.take (q.Items.length - 1) ++
            [(nthBucket q.Items (q.Items.length - 1)).CloseWindow
                (some (nthBucket q.Items (q.Items.length - 2))),
              (NewTimestampedCounts t).Update r])) := by
  constructor
  · intro j hj hm hf
    have hmem : nthBucket q.Items j ∈ q.Items := by
      rw [nthBucket_eq_get q.Items j hj]
      exact List.get_mem q.Items j hj
    rw [updateCount_match_items q t r ⟨nthBucket q.Items j, hmem, hm⟩]
    exact updateFirstMatch_eq_set q.Items t r j hj hm hf
  · intro hno hcap
    have hbase := updateCount_nomatch_items q t r hno hcap
    refine ⟨?_, ?_, ?_⟩
    · intro hnil
      rw [hbase, hnil]
      rfl
    · intro a ha
      rw [hbase, ha]
      rfl
    · intro h2
      rw [hbase, closeMostRecent_eq q.Items h2]
      simp

/-- Claim C1 witness: the existing-timestamp branch on a two-bucket history
(report at `t = 110` hits bucket index 1), and all three no-match branches on
empty, one-bucket, and two-bucket histories. -/
theorem updateCount_transition_cases_witness :
    (UpdateCount exOpenQueue 110 (PodReadCount.mk "pod1" [("p1", 7)])).Items =
      exOpenQueue.Items.set 1
        ((nthBucket exOpenQueue.Items 1).Update (PodReadCount.mk "pod1" [("p1", 7)])) ∧
    (UpdateCount (OverflowQueue.mk [] 100) 100 (PodReadCount.mk "pod1" [("p1", 5)])).Items =
      [(NewTimestampedCounts 100).Update (PodReadCount.mk "pod1" [("p1", 5)])] ∧
    (UpdateCount (OverflowQueue.mk [NewTimestampedCounts 100] 100) 110
        (PodReadCount.mk "pod1" [("p1", 15)])).Items =
      [(NewTimestampedCounts 100).CloseWindow none,
        (NewTimestampedCounts 110).Update (PodReadCount.mk "pod1" [("p1", 15)])] ∧
    (UpdateCount exOpenQueue 120 (PodReadCount.mk "pod1" [("p1", 30)])).Items =
      exOpenQueue.Items.take 1 ++
        [(nthBucket exOpenQueue.Items 1).CloseWindow (some (nthBucket exOpenQueue.Items 0)),
          (NewTimestampedCounts 120).Update (PodReadCount.mk "pod1" [("p1", 30)])] := by
  refine ⟨?_, ?_, ?_, ?_⟩
  · exact (updateCount_transition_cases exOpenQueue 110
      (PodReadCount.mk "pod1" [("p1", 7)])).1 1 (by decide) (by decide)
      (fun k hk => by interval_cases k <;> decide)
  · exact ((updateCount_transition_cases (OverflowQueue.mk [] 100) 100
      (PodReadCount.mk "pod1" [("p1", 5)])).2 (by decide) (by decide)).1 rfl
  · exact (((updateCount_transition_cases (OverflowQueue.mk [NewTimestampedCounts 100] 100)
      110 (PodReadCount.mk "pod1" [("p1", 15)])).2 (by decide) (by decide)).2).1
      (NewTimestampedCounts 100) rfl
  · exact (((updateCount_transition_cases exOpenQueue 120
      (PodReadCount.mk "pod1" [("p1", 30)])).2 (by decide) (by decide)).2).2 (by decide)

/-- Claim C9: frame effects of `UpdateCount` — when a bucket matches the
timestamp, the history keeps its length and every bucket keeps its
window-closed state (and delta snapshot); when none matches (and the bounded
history has spare capacity), exactly one new open bucket is appended, every
bucket other than the most recent existing one is wholly unchanged, and the
most recent existing bucket keeps its timestamp and cumulative counts (only
its window-closed state and delta snapshot may change). -/
theorem updateCount_frame (q : OverflowQueue TimestampedCounts) (t : Int)
    (r : PodReadCount) :
    ((∃ i ∈ q.Items, i.timestamp = t) →
      (UpdateCount q t r).Items.length = q.Items.length ∧
      (∀ j, (nthBucket (UpdateCount q t r).Items j).isWindowClosed =
          (nthBucket q.Items j).isWindowClosed ∧
        (nthBucket (UpdateCount q t r).Items j).delta = (nthBucket q.Items j).delta)) ∧
    ((∀ i ∈ q.Items, i.timestamp ≠ t) → q.Items.length < q.maxsize →
      (UpdateCount q t r).Items.length = q.Items.length + 1 ∧
      (nthBucket (UpdateCount q t r).Items q.Items.length).isWindowClosed = false ∧
      (∀ j, j + 1 < q.Items.length →
        nthBucket (UpdateCount q t r).Items j = nthBucket q.Items j) ∧
      (1 ≤ q.Items.length →
        (nthBucket (UpdateCount q t r).Items (q.Items.length - 1)).timestamp =
          (nthBucket q.Items (q.Items.length - 1)).timestamp ∧
        (nthBucket (UpdateCount q t r).Items (q.Items.length - 1)).podPartitionCount =
          (nthBucket q.Items (q.Items.length - 1)).podPartitionCount)) := by
  constructor
  · intro hex
    rw [updateCount_match_items q t r hex]
    exact ⟨updateFirstMatch_length q.Items t r,
      fun j => updateFirstMatch_closed q.Items t r j⟩
  · intro hno hcap
    rw [updateCount_nomatch_items q t r hno hcap]
    refine ⟨?_, ?_, ?_, ?_⟩
    · rw [List.length_append, closeMostRecent_length]
      rfl
    · have h := nthBucket_append_length (closeMostRecent q.Items)
        ((NewTimestampedCounts t).Update r)
      rw [closeMostRecent_length] at h
      rw [h]
      rfl
    · intro j hj
      rw [nthBucket_append_lt _ _ j (by rw [closeMostRecent_length]; omega)]
      exact closeMostRecent_prefix q.Items j hj
    · intro h1
      rw [nthBucket_append_lt _ _ (q.Items.length - 1)
        (by rw [closeMostRecent_length]; omega)]
      exact closeMostRecent_last_fields q.Items h1

/-- Claim C9 witness: the matching branch on a mixed four-bucket history
(report at `t = 110`) and the no-match branch on the same history
(report at `t = 140`). -/
theorem updateCount_frame_witness :
    (UpdateCount exMixedQueue 110 (PodReadCount.mk "pod1" [("p1", 7)])).Items.length =
      exMixedQueue.Items.length ∧
    (UpdateCount exMixedQueue 140 (PodReadCount.mk "pod1" [("p1", 9)])).Items.length =
      exMixedQueue.Items.length + 1 ∧
    (nthBucket (UpdateCount exMixedQueue 140 (PodReadCount.mk "pod1" [("p1", 9)])).Items
        exMixedQueue.Items.length).isWindowClosed = false ∧
    (nthBucket (UpdateCount exMixedQueue 140 (PodReadCount.mk "pod1" [("p1", 9)])).Items 1) =
      nthBucket exMixedQueue.Items 1 := by
  refine ⟨?_, ?_, ?_, ?_⟩
  · exact ((updateCount_frame exMixedQueue 110 (PodReadCount.mk "pod1" [("p1", 7)])).1
      ⟨NewTimestampedCounts 110, by decide, by decide⟩).1
  · exact ((updateCount_frame exMixedQueue 140 (PodReadCount.mk "pod1" [("p1", 9)])).2
      (by decide) (by decide)).1
  · exact ((updateCount_frame exMixedQueue 140 (PodReadCount.mk "pod1" [("p1", 9)])).2
      (by decide) (by decide)).2.1
  · exact ((updateCount_frame exMixedQueue 140 (PodReadCount.mk "pod1" [("p1", 9)])).2
      (by decide) (by decide)).2.2.1 1 (by decide)

/-- A single-pod read-count report for partition `p1` with cumulative count `c`. -/
def rpt (c : ℚ) : PodReadCount :=
  { podName := "pod1", partitionReadCounts := [("p1", c)] }

/-- Three ingestions at `t0`, `t0 + d`, `t0 + 2d` with cumulative counts
`c0`, `c1`, `c2`, starting from an empty history of capacity 100. -/
def ingestThree (t0 d : Int) (c0 c1 c2 : ℚ) : OverflowQueue TimestampedCounts :=
  UpdateCount
    (UpdateCount (UpdateCount (OverflowQueue.mk [] 100) t0 (rpt c0)) (t0 + d) (rpt c1))
    (t0 + 2 * d) (rpt c2)

/-- The history produced by the three ingestions: the first two buckets closed
(deltas `c0` and `c1 - c0`), the newest still open. -/
def threeBucketHistory (t0 d : Int) (c0 c1 c2 : ℚ) : List TimestampedCounts :=
  [⟨t0, [("pod1", [("p1", c0)])], true, [("pod1", [("p1", c0)])]⟩,
   ⟨t0 + d, [("pod1", [("p1", c1)])], true, [("pod1", [("p1", c1 - c0)])]⟩,
   ⟨t0 + 2 * d, [("pod1", [("p1", c2)])], false, []⟩]

theorem ingestThree_eq (t0 d : Int) (c0 c1 c2 : ℚ) (hd : d ≠ 0)
    (h01 : ¬ c1 < c0) :
    ingestThree t0 d c0 c1 c2 =
      OverflowQueue.mk (threeBucketHistory t0 d c0 c1 c2) 100 := by
  have h1 : t0 ≠ t0 + d := by omega
  have h2 : t0 ≠ t0 + 2 * d := by omega
  have h3 : t0 + d ≠ t0 + 2 * d := by omega
  unfold ingestThree threeBucketHistory
  simp [UpdateCount, OverflowQueue.Items, OverflowQueue.Append, closeMostRecent,
    updateFirstMatch, NewTimestampedCounts, TimestampedCounts.Update, insertPod,
    TimestampedCounts.CloseWindow, deltaForPod, lookupPodPartition, lookupOr0,
    List.find?, rpt, h1, h2, h3, h01, sub_zero]

theorem threeBucket_findStart (t0 d lb : Int) (c0 c1 c2 : ℚ) (hd : 0 < d)
    (hlb : 2 * d ≤ lb) :
    findStartIndex (t0 + 2 * d) lb (threeBucketHistory t0 d c0 c1 c2) = some 0 := by
  unfold findStartIndex
  rw [if_neg (show ¬((threeBucketHistory t0 d c0 c1 c2).length < 2 ∨
      lb < t0 + 2 * d - (nthBucket (threeBucketHistory t0 d c0 c1 c2)
        ((threeBucketHistory t0 d c0 c1 c2).length - 2)).timestamp) from by
    show ¬((3 : Nat) < 2 ∨ lb < t0 + 2 * d - (t0 + d))
    push_neg
    exact ⟨by omega, by omega⟩)]
  have hc1 : startCond (t0 + 2 * d) lb (threeBucketHistory t0 d c0 c1 c2) 1 = true := by
    rw [startCond_eq_true_iff]
    exact ⟨show t0 + 2 * d - (t0 + d) ≤ lb by omega, rfl⟩
  have hc0 : startCond (t0 + 2 * d) lb (threeBucketHistory t0 d c0 c1 c2) 0 = true := by
    rw [startCond_eq_true_iff]
    exact ⟨show t0 + 2 * d - t0 ≤ lb by omega, rfl⟩
  show some (startScan (t0 + 2 * d) lb (threeBucketHistory t0 d c0 c1 c2) 1 1) = some 0
  simp only [startScan, hc1, hc0, if_true]

theorem threeBucket_findEnd (t0 d : Int) (c0 c1 c2 : ℚ) :
    findEndIndex (threeBucketHistory t0 d c0 c1 c2) = some 1 := rfl

theorem threeBucket_rate (t0 d lb : Int) (c0 c1 c2 : ℚ) (hd : 0 < d)
    (hlb : 2 * d ≤ lb) :
    CalculateRate (OverflowQueue.mk (threeBucketHistory t0 d c0 c1 c2) 100)
      (t0 + 2 * d) lb "p1" = (c1 - c0) / (d : ℚ) := by
  have hlen : ¬ ((threeBucketHistory t0 d c0 c1 c2).length ≤ 1) := by
    show ¬ ((3 : Nat) ≤ 1)
    omega
  unfold CalculateRate
  simp only [OverflowQueue.Items, hlen, if_false,
    threeBucket_findStart t0 d lb c0 c1 c2 hd hlb, threeBucket_findEnd]
  have htd : (nthBucket (threeBucketHistory t0 d c0 c1 c2) 1).timestamp -
      (nthBucket (threeBucketHistory t0 d c0 c1 c2) 0).timestamp = d := by
    show t0 + d - t0 = d
    omega
  rw [htd, if_neg (show ¬ d = 0 by omega)]
  have hda : deltaAccum (threeBucketHistory t0 d c0 c1 c2) "p1" 0 1 = c1 - c0 := by
    simp [deltaAccum, List.range', threeBucketHistory, nthBucket,
      TimestampedCounts.IsWindowClosed, calculatePartitionDelta,
      TimestampedCounts.PodDeltaCountSnapshot, lookupOr0, List.find?]
  rw [hda]

/-- Claim C4 counterexample: ingesting `(100, 5)`, `(110, 15)`, `(120, 30)`
does close bucket `t = 110` with delta 10 and `CalculateRate` at `now = 120`
with lookback 20 returns exactly 1 — but the claim's general formula
`(c2 - c0) / (t2 - t0) = (30 - 5) / (120 - 100) = 5/4` differs from 1, so
the "more generally" part fails at this very input: the newest bucket is
still open, so its delta `c2 - c1` is excluded from the sum. -/
theorem calculateRate_delta_additivity_counterexample :
    (nthBucket (ingestThree 100 10 5 15 30).Items 1).timestamp = 110 ∧
    (nthBucket (ingestThree 100 10 5 15 30).Items 1).IsWindowClosed = true ∧
    calculatePartitionDelta (nthBucket (ingestThree 100 10 5 15 30).Items 1) "p1" = 10 ∧
    CalculateRate (ingestThree 100 10 5 15 30) 120 20 "p1" = 1 ∧
    ((30 : ℚ) - 5) / ((120 : ℚ) - 100) ≠ 1 := by
  have hq := ingestThree_eq 100 10 5 15 30 (by norm_num) (by norm_num)
  rw [hq]
  norm_num [threeBucketHistory, nthBucket, OverflowQueue.Items, CalculateRate,
    findStartIndex, findEndIndex, startScan, startCond, endScan, deltaAccum,
    List.range', calculatePartitionDelta, TimestampedCounts.PodDeltaCountSnapshot,
    TimestampedCounts.IsWindowClosed, lookupOr0, List.find?]

/-- Claim C4 (amended): the concrete part stands (bucket `t = 110` closes with
delta 10 and the rate at `now = 120`, lookback 20 is exactly 1, shown in the
counterexample theorem); in general, for a strictly increasing no-reset
sequence `c0 < c1 < c2` at evenly spaced buckets `t0, t0+d, t0+2d` ingested
into an empty history, `CalculateRate` with lookback at least `2d` queried at
`now = t0+2d` equals `(c1 - c0) / d` — the closed span only — not
`(c2 - c0) / (2d)`. -/
theorem calculateRate_delta_additivity (t0 d lb : Int) (c0 c1 c2 : ℚ)
    (hd : 0 < d) (h01 : c0 < c1) (h12 : c1 < c2) (hlb : 2 * d ≤ lb) :
    CalculateRate (ingestThree t0 d c0 c1 c2) (t0 + 2 * d) lb "p1" =
      (c1 - c0) / (d : ℚ) := by
  rw [ingestThree_eq t0 d c0 c1 c2 (by omega) (not_lt.mpr h01.le)]
  exact threeBucket_rate t0 d lb c0 c1 c2 hd hlb

/-- Claim C4 witness: the amended general formula applied at the spec's
end-to-end example. -/
theorem calculateRate_delta_additivity_witness :
    CalculateRate (ingestThree 100 10 5 15 30) (100 + 2 * 10) 20 "p1" =
      ((15 : ℚ) - 5) / ((10 : Int) : ℚ) :=
  calculateRate_delta_additivity 100 10 20 5 15 30
    (by norm_num) (by norm_num) (by norm_num) (by norm_num)
